import Mathlib

set_option maxRecDepth 8000

/-!
Verification of the chittychat evidence-pipeline scripts.

Shallow embedding of the Python sources under `src/`: file contents are
`List Nat` (byte values), filesystem reads are `Option` (a `none` models an
unreadable file, i.e. a raised `IOError`), HTTP services are explicit
response streams or supply functions, and each script's control flow is a
Lean function over those inputs.

The SHA-256 implementation invoked by the scripts is the Python standard
library's `hashlib.sha256` — an external collaborator, not repository code.
No property below depends on the digest values themselves, only on *which*
data is hashed; the digest function therefore enters the embedding as an
explicit parameter `sha : Bytes → String` of each definition that hashes,
standing for `hashlib.sha256(data).hexdigest()`.
-/

/-- Byte string: the values of a Python `bytes` object. -/
abbrev Bytes : Type := List Nat

/-- The UTF-8 bytes of a string: Python `str.encode()`. -/
def strBytes (s : String) : Bytes :=
  s.toUTF8.toList.map (fun b => b.toNat)

/-- Python `s.startswith(pre)`: Python string operations are
character-based, so the model works on the character list. -/
def strStartsWith (s pre : String) : Bool :=
  pre.data.isPrefixOf s.data

/-- Python `s.endswith(suf)`. -/
def strEndsWith (s suf : String) : Bool :=
  suf.data.isSuffixOf s.data

/-- Python `s.upper()`. -/
def strToUpper (s : String) : String :=
  ⟨s.data.map Char.toUpper⟩

/-- Python `s.lower()`. -/
def strToLower (s : String) : String :=
  ⟨s.data.map Char.toLower⟩

/-- Whether `pat` occurs contiguously in `s`, checked at each suffix. -/
def subAt : List Char → List Char → Bool
  | _, [] => true
  | [], _ :: _ => false
  | c :: rest, pat => pat.isPrefixOf (c :: rest) || subAt rest pat

/-- Python `pat in s` (substring containment). -/
def containsSub (s pat : String) : Bool :=
  subAt s.data pat.data

/-- Python `any(term in s for term in terms)`. -/
def containsAny (s : String) (terms : List String) : Bool :=
  terms.any (fun t => containsSub s t)

/-- A stand-in digest function used only to evaluate the embedding at
concrete inputs in the closed theorems below (the theorems about hashing
hold for every `sha`). -/
def demoSha (b : Bytes) : String :=
  String.intercalate "-" (b.map (fun v => toString v))

/-! ## `src/gdrive_to_notion_linker.py` -/

namespace GdriveLinker

/-- `generate_chitty_id` (src/gdrive_to_notion_linker.py, lines 21–25):

    timestamp = datetime.now().strftime('%y%m')
    hash_val = hashlib.sha256(file_name.encode()).hexdigest()[:8].upper()
    return f"LOCAL-DOC-{timestamp}-{hash_val}"

The ambient clock enters as the `yymm` parameter (the `%y%m` string). -/
def generate_chitty_id (sha : Bytes → String) (fileName yymm : String) : String :=
  let hashVal := strToUpper ((sha (strBytes fileName)).take 8)
  "LOCAL-DOC-" ++ yymm ++ "-" ++ hashVal

/-- A document as the linker sees it: a display name plus the underlying
file content.  The call site `doc["chitty_id"] = generate_chitty_id(doc["name"])`
passes only the name. -/
structure DriveFile where
  name : String
  content : Bytes
deriving DecidableEq

/-- The identifier the linker assigns to a document. -/
def chittyIdFor (sha : Bytes → String) (f : DriveFile) (yymm : String) : String :=
  generate_chitty_id sha f.name yymm

end GdriveLinker

/-! ## `src/add_chittyids_to_csv.py` -/

namespace CsvIds

/-- One response of the id.chitty.cc service to a mint POST. -/
inductive MintResp where
  | ok (chittyId : String)
  | rateLimited
  | httpError (code : Nat)
deriving DecidableEq

/-- `request_chitty_id` (src/add_chittyids_to_csv.py, lines 15–45).  The
service is a stream of responses, one consumed per attempt.  On HTTP 429 the
Python code sleeps 2 s and calls itself recursively with no attempt bound;
the recursion here is structural on the remaining stream, and an exhausted
stream yields `none`: the call is *still retrying*, having neither returned
nor failed.  The second component counts the attempts (network calls) made.
A missing `CHITTY_ID_TOKEN` raises before any attempt. -/
def request_chitty_id (token : Option String) :
    List MintResp → Option (Except String String) × Nat
  | [] =>
    match token with
    | none => (some (Except.error "CHITTY_ID_TOKEN environment variable required"), 0)
    | some _ => (none, 0)
  | r :: rest =>
    match token with
    | none => (some (Except.error "CHITTY_ID_TOKEN environment variable required"), 0)
    | some _ =>
      match r with
      | MintResp.ok cid => (some (Except.ok cid), 1)
      | MintResp.httpError c =>
          (some (Except.error ("ChittyID service error: " ++ toString c)), 1)
      | MintResp.rateLimited =>
          let out := request_chitty_id token rest
          (out.1, out.2 + 1)

/-- Number of mint attempts `request_chitty_id` makes on a response stream. -/
def attemptsOn (rs : List MintResp) : Nat :=
  (request_chitty_id (some "tok") rs).2

/-- Entity classification of a CSV row from its description
(src/add_chittyids_to_csv.py, lines 77–92). -/
def classifyRow (description : String) : String × String :=
  let d := strToLower description
  if containsAny d ["email", "message", "communication"] then ("EVNT", "COMM")
  else if containsAny d ["payment", "transfer", "financial"] then ("EVNT", "FINL")
  else if containsAny d ["agreement", "contract", "document"] then ("PROP", "DOCU")
  else ("EVNT", "MISC")

/-- A timeline row together with the outcome of its mint request (the
service call made for it while processing). -/
structure CsvRow where
  description : String
  mint : Except String String

instance : DecidableEq (Except String String) := fun a b =>
  match a, b with
  | Except.ok x, Except.ok y =>
      decidable_of_iff (x = y) (by constructor <;> (intro h; cases h; rfl))
  | Except.error x, Except.error y =>
      decidable_of_iff (x = y) (by constructor <;> (intro h; cases h; rfl))
  | Except.ok _, Except.error _ => isFalse (fun h => Except.noConfusion h)
  | Except.error _, Except.ok _ => isFalse (fun h => Except.noConfusion h)

instance : DecidableEq CsvRow := fun a b =>
  decidable_of_iff (a.description = b.description ∧ a.mint = b.mint)
    (by cases a; cases b; constructor
        · rintro ⟨h1, h2⟩; simp_all
        · intro h; cases h; exact ⟨rfl, rfl⟩)

/-- The `service_chitty_id` value written for row `idx`
(src/add_chittyids_to_csv.py, lines 94–110): the minted id on success, and
the fabricated placeholder `ERROR_{idx}` when the request raised. -/
def rowServiceId (idx : Nat) (row : CsvRow) : String :=
  match row.mint with
  | Except.ok cid => cid
  | Except.error _ => "ERROR_" ++ toString idx

/-- `process_timeline_csv` over already-read rows: the written
`service_chitty_id` column in order, and the count of successfully minted
rows.  Per-row mint errors are caught; processing always reaches the end. -/
def process_timeline_csv (rows : List CsvRow) : List String × Nat :=
  ((rows.enum.map (fun p => rowServiceId p.1 p.2)),
   rows.countP (fun r => r.mint.isOk))

/-- Exit code of `main` (src/add_chittyids_to_csv.py, lines 112–145 and the
`exit(0 if success else 1)` guard): `1` when `CHITTY_ID_TOKEN` is absent or
the CSV pass itself raised (e.g. the input file is unreadable), `0` once
`process_timeline_csv` completes — regardless of how many rows failed to
mint. -/
def mainExit (tokenPresent : Bool) (csvReadFails : Bool) (rows : List CsvRow) : Nat :=
  if tokenPresent then
    if csvReadFails then 1
    else (fun _ => 0) (process_timeline_csv rows)
  else 1

end CsvIds

/-! ## `src/evidence_analyzer_chittyos.py`: minting and placeholders -/

namespace Analyzer

/-- `ChittyOSEvidenceAnalyzer.request_chitty_id`
(src/evidence_analyzer_chittyos.py, lines 80–97).  The body POSTs
`{"domain": "legal", "subtype": "evidence"}` and returns the service's
`chitty_id`; the `content_hash` and `metadata` arguments are *not* part of
the request, and no cache is consulted.  `serviceResp` is the id the
service mints for this call; the `Nat` in the result counts the network
calls the invocation issued (always 1 once the token check passes). -/
def request_chitty_id (token : Option String) (contentHash : String)
    (serviceResp : String) : Except String (String × Nat) :=
  match token, contentHash with
  | none, _ => Except.error "CHITTY_ID_TOKEN environment variable required"
  | some _, _ => Except.ok (serviceResp, 1)

/-- The placeholder `generate_timeline` writes into the `chitty_id` column
(src/evidence_analyzer_chittyos.py, lines 226–234):
`f"PENDING_CHITTYID_{row.name}_{self.case_id}"` where `row.name` is the
row's index. -/
def timelineChittyId (rowIndex : Nat) (caseId : String) : String :=
  "PENDING_CHITTYID_" ++ toString rowIndex ++ "_" ++ caseId

end Analyzer

/-! ## `src/dedupe_and_organize.py` -/

namespace Dedupe

/-- A file met by `Path(directory).rglob('*')`: its path and its content,
`none` when opening/reading it raises. -/
structure FileEntry where
  path : String
  content : Option Bytes
deriving DecidableEq

/-- `file_path.name`: the final component of a path — the characters
after the last `/`. -/
def baseName (path : String) : String :=
  ⟨path.data.foldl (fun acc c => if c = '/' then [] else acc ++ [c]) []⟩

/-- `calculate_file_hash` (src/dedupe_and_organize.py, lines 16–26): the
SHA-256 hex digest of the file's bytes; the `try/except` catches a read
error, logs it, and returns `None`. -/
def calculate_file_hash (sha : Bytes → String) (f : FileEntry) : Option String :=
  match f.content with
  | none => none
  | some c => some (sha c)

/-- `defaultdict(list)` update: append `p` to the bucket of key `k`,
creating the bucket at the end on first use (Python dicts preserve
insertion order). -/
def bucketAdd (m : List (String × List String)) (k p : String) :
    List (String × List String) :=
  match m with
  | [] => [(k, [p])]
  | (k₀, l) :: rest =>
    if k₀ = k then (k₀, l ++ [p]) :: rest else (k₀, l) :: bucketAdd rest k p

/-- The bucket of key `k` (empty when absent). -/
def bucketOf (m : List (String × List String)) (k : String) : List String :=
  match m.find? (fun e => e.1 = k) with
  | some e => e.2
  | none => []

/-- The grouping loop of `find_duplicates` (src/dedupe_and_organize.py,
lines 28–44): every regular file whose *base name*
(`file_path.name.startswith('.')`) does not start with `.` is hashed; on a
hash (`None` means the read failed) the path joins that digest's bucket. -/
def hashFiles (sha : Bytes → String) (listing : List FileEntry) :
    List (String × List String) :=
  listing.foldl
    (fun m f =>
      if strStartsWith (baseName f.path) "." then m
      else
        match calculate_file_hash sha f with
        | none => m
        | some h => bucketAdd m h f.path)
    []

/-- `find_duplicates` (src/dedupe_and_organize.py, lines 28–51): the buckets
holding more than one path. -/
def find_duplicates (sha : Bytes → String) (listing : List FileEntry) :
    List (String × List String) :=
  (hashFiles sha listing).filter (fun e => e.2.length > 1)

/-- The filesystem as `remove_duplicates` touches it: an association of
paths to `st_size` values; a missing path makes `stat` raise. -/
def Fs : Type := List (String × Nat)

/-- `remove_file.stat().st_size`. -/
def statSize (fs : Fs) (p : String) : Option Nat :=
  match fs.find? (fun e => e.1 = p) with
  | some e => some e.2
  | none => none

/-- `remove_file.unlink()`. -/
def unlink (fs : Fs) (p : String) : Fs :=
  fs.filter (fun e => ¬ (e.1 = p))

/-- Running state of `remove_duplicates`: the counters and the filesystem. -/
structure RmState where
  removed : Nat
  saved : Nat
  fs : Fs

/-- The inner loop body of `remove_duplicates` for one non-first path
(src/dedupe_and_organize.py, lines 66–80): `stat` the file (an error is
caught and the path skipped), add its size to `saved_space`, unlink it
unless `dry_run`, and count it removed. -/
def rmFile (dryRun : Bool) (st : RmState) (p : String) : RmState :=
  match statSize st.fs p with
  | none => st
  | some sz =>
    { removed := st.removed + 1
      saved := st.saved + sz
      fs := if dryRun then st.fs else unlink st.fs p }

/-- One group of `remove_duplicates` (src/dedupe_and_organize.py, lines
58–80): `keep_file = file_paths[0]` raises `IndexError` on an empty group
(so `none`); the paths after the first run through `rmFile`. -/
def rmGroup (dryRun : Bool) (st : Option RmState) (g : String × List String) :
    Option RmState :=
  match st with
  | none => none
  | some s =>
    match g.2 with
    | [] => none
    | _ :: rest => some (rest.foldl (rmFile dryRun) s)

/-- `remove_duplicates` (src/dedupe_and_organize.py, lines 53–84) over the
groups in iteration order, starting from counters `0` on filesystem `fs`. -/
def remove_duplicates (fs : Fs) (dups : List (String × List String))
    (dryRun : Bool) : Option RmState :=
  dups.foldl (rmGroup dryRun) (some { removed := 0, saved := 0, fs := fs })

end Dedupe

/-! ## `src/evidence_cli.py` -/

namespace EvidenceCli

/-- `ChittyOSEvidenceCLI.generate_file_hash` (src/evidence_cli.py, lines
36–42): no `try/except` — a read error (`IOError`) propagates to the
caller; otherwise the hex digest of the file's bytes is returned. -/
def generate_file_hash (sha : Bytes → String) (f : Dedupe.FileEntry) :
    Except String String :=
  match f.content with
  | none => Except.error "IOError"
  | some c => Except.ok (sha c)

/-- The observable environment of one `main` invocation
(src/evidence_cli.py, lines 209–234): whether the ChittyOS data directory
exists (`__init__` raises `FileNotFoundError` when it does not) and whether
the selected action (`status`/`scan`/`list`) raises while running. -/
structure CliEnv where
  dataDirExists : Bool
  actionRaises : Bool

/-- Exit code of `main`: the single `except Exception` arm calls
`sys.exit(1)` for *every* failure — the missing data directory included —
and the process exits `0` whenever the action completes.  None of the three
actions requests or mints an identifier. -/
def mainExit (e : CliEnv) : Nat :=
  if e.dataDirExists then
    if e.actionRaises then 1 else 0
  else 1

end EvidenceCli

/-! ## `src/chittylegder_integration.py` -/

namespace LedgerBridge

/-- One entry of `evidence_mappings.json`, keyed in the JSON by the Notion
page id (`evidence_id`). -/
structure Mapping where
  evidenceId : String
  chittyId : String
  fileHash : String

/-- `file_path.name.split('_')[0]`: the hash prefix of a flat-output file
name (src/chittylegder_integration.py, line 240). -/
def fileHashOf (name : String) : String :=
  (name.splitOn "_").headD ""

/-- State carried through `sync_pending_evidence`: the persisted mappings
(grown by `_store_mapping` on each mint), the count of Notion page ids
drawn from the service, and `synced_count`. -/
structure SyncState where
  mappings : List Mapping
  pageCount : Nat
  synced : Nat

/-- One iteration of the `sync_pending_evidence` loop
(src/chittylegder_integration.py, lines 236–256) for the flat file `name`:
the *snapshot* of the mappings loaded at the start of the run decides
`already_synced`; `meta` is `process_ai_metadata` restricted to the
`chitty_id` the sync reads from it (`none` when the metadata file is
missing or carries no `chitty_id`); `pageIds` supplies the Notion page id
each successful `mint_evidence` returns, and `_store_mapping` appends the
new mapping to the persisted state. -/
def syncFile (meta : String → Option String) (pageIds : Nat → String)
    (snapshot : List Mapping) (st : SyncState) (name : String) : SyncState :=
  let h := fileHashOf name
  if snapshot.any (fun m => m.fileHash = h) then st
  else
    match meta h with
    | none => st
    | some cid =>
      { mappings := st.mappings ++ [{ evidenceId := pageIds st.pageCount
                                      chittyId := cid
                                      fileHash := h }]
        pageCount := st.pageCount + 1
        synced := st.synced + 1 }

/-- `sync_pending_evidence` (src/chittylegder_integration.py, lines
219–260): fold the loop over the flat-output listing, with the persisted
mappings both as the start state and as the snapshot the membership test
uses. -/
def sync_pending_evidence (meta : String → Option String)
    (pageIds : Nat → String) (persisted : List Mapping)
    (flatFiles : List String) : SyncState :=
  flatFiles.foldl (syncFile meta pageIds persisted)
    { mappings := persisted, pageCount := 0, synced := 0 }

end LedgerBridge

/-! ## `src/rclone_to_notion_sync.py`: the main sync loop -/

namespace RcloneSync

/-- The outcome `sync_to_notion` would have for one file: a response
carrying an `id`, a response without one (the error message shown), or a
raised exception. -/
inductive SyncOutcome where
  | hasId (pageId : String)
  | noId (message : String)
  | raises (message : String)

/-- One rclone listing entry as the loop reads it: its `Name` and what its
sync attempt does. -/
structure SyncFile where
  name : String
  outcome : SyncOutcome

/-- The known counters of the run plus the files synced so far (the
per-file effects on Notion that succeeded). -/
structure SyncStats where
  success : Nat
  errors : Nat
  skipped : Nat
  syncedNames : List String

/-- Whether the loop skips the file before trying to sync it
(src/rclone_to_notion_sync.py, lines 262–265); the check runs on
`file_info.get('Name', 'unknown')[:50]`. -/
def skipsFile (f : SyncFile) : Bool :=
  strStartsWith (f.name.take 50) "." || strEndsWith (f.name.take 50) ".tmp"

/-- Whether this file's sync attempt is recorded as an error (a response
without an `id`, or a raised exception — both caught by the loop). -/
def failsSync (f : SyncFile) : Bool :=
  match f.outcome with
  | SyncOutcome.hasId _ => false
  | SyncOutcome.noId _ => true
  | SyncOutcome.raises _ => true

/-- The loop body for one file (src/rclone_to_notion_sync.py, lines
259–287): skip dot/tmp names, otherwise sync and count a success or —
response without id, or exception — an error, then move on. -/
def syncStep (st : SyncStats) (f : SyncFile) : SyncStats :=
  if skipsFile f then { st with skipped := st.skipped + 1 }
  else
    match f.outcome with
    | SyncOutcome.hasId _ =>
      { st with success := st.success + 1, syncedNames := st.syncedNames ++ [f.name] }
    | SyncOutcome.noId _ => { st with errors := st.errors + 1 }
    | SyncOutcome.raises _ => { st with errors := st.errors + 1 }

/-- The whole sync loop over the (batched) file list: the batching by 50
only chunks the same in-order traversal for progress printing, so the run
is the in-order fold; it always reaches the final-summary print and
returns these statistics. -/
def runSync (files : List SyncFile) : SyncStats :=
  files.foldl syncStep { success := 0, errors := 0, skipped := 0, syncedNames := [] }

end RcloneSync

/-! ## `src/evidence_analyzer_chittyos.py`: enumeration and batch loops -/

namespace Analyzer

/-- The glob patterns of `run_analysis`
(src/evidence_analyzer_chittyos.py, line 295), as the suffix each one
matches. -/
def patterns : List String :=
  [".md", ".txt", ".pdf", ".csv", ".json", ".xml"]

/-- The file paths `run_analysis` archives, in processing order
(src/evidence_analyzer_chittyos.py, lines 295–305): one `glob` per
pattern — each returning the matching files in the order the filesystem
enumeration `listing` yields them, with no sort applied — and paths
containing `out/` skipped. -/
def archiveOrder (listing : List String) : List String :=
  patterns.flatMap (fun ext =>
    listing.filter (fun p => strEndsWith p ext && !(containsSub p "out/")))

/-- The archiving loop of `run_analysis` with `ok p` telling whether
`archive_source_document(p)` completes for path `p`: each failure is
caught (`except Exception: continue`) and only successes are counted. -/
def archivedCount (ok : String → Bool) (listing : List String) : Nat :=
  (archiveOrder listing).countP ok

/-- Files failing to archive in the same run, each recorded by the
`except` arm's log line. -/
def archiveFailedCount (ok : String → Bool) (listing : List String) : Nat :=
  (archiveOrder listing).countP (fun p => !(ok p))

/-- A file met by the `os.walk` of `process_input_files`
(src/evidence_analyzer_chittyos.py, lines 394–424): its base name, its
suffix (lower-cased by the check), and whether archiving it succeeds
(`Except.error` models the exception the loop catches). -/
structure WalkFile where
  name : String
  suffix : String
  archive : Except String String

/-- The suffixes `process_input_files` processes. -/
def relevantSuffixes : List String :=
  [".pdf", ".docx", ".txt", ".md", ".csv", ".xlsx", ".eml"]

/-- Whether the walk loop attempts this file at all: not a dot-file, and a
relevant suffix. -/
def attemptsFile (f : WalkFile) : Bool :=
  !(strStartsWith f.name ".") && relevantSuffixes.contains f.suffix

/-- Whether the file is counted in `processed_count`: attempted and its
`archive_source_document` call returned. -/
def processesFile (f : WalkFile) : Bool :=
  attemptsFile f && f.archive.isOk

/-- `process_input_files` over the walked files: every per-file exception
is caught and logged, the loop continues, and the completion log line
reports this count. -/
def processInputCount (files : List WalkFile) : Nat :=
  files.countP processesFile

end Analyzer

/-! ## Helper lemmas -/

namespace LedgerBridge

/-- A digest is already recorded in a mapping list. -/
def hashSynced (ms : List Mapping) (h : String) : Prop :=
  ∃ m ∈ ms, m.fileHash = h

instance (ms : List Mapping) (h : String) : Decidable (hashSynced ms h) := by
  unfold hashSynced
  infer_instance

theorem syncFile_mappings_mono (meta : String → Option String)
    (pageIds : Nat → String) (snapshot : List Mapping) (st : SyncState)
    (name : String) (m : Mapping) (hm : m ∈ st.mappings) :
    m ∈ (syncFile meta pageIds snapshot st name).mappings := by
  unfold syncFile
  dsimp only
  split
  · exact hm
  · split
    · exact hm
    · exact List.mem_append_left _ hm

theorem syncFold_mappings_mono (meta : String → Option String)
    (pageIds : Nat → String) (snapshot : List Mapping) :
    ∀ (files : List String) (st : SyncState) (m : Mapping),
      m ∈ st.mappings →
      m ∈ (files.foldl (syncFile meta pageIds snapshot) st).mappings := by
  intro files
  induction files with
  | nil => intro st m hm; exact hm
  | cons f fs ih =>
    intro st m hm
    exact ih _ m (syncFile_mappings_mono meta pageIds snapshot st f m hm)

theorem syncFold_hashSynced_mono (meta : String → Option String)
    (pageIds : Nat → String) (snapshot : List Mapping) (files : List String)
    (st : SyncState) (h : String) (hs : hashSynced st.mappings h) :
    hashSynced (files.foldl (syncFile meta pageIds snapshot) st).mappings h := by
  rcases hs with ⟨m, hm, hmh⟩
  exact ⟨m, syncFold_mappings_mono meta pageIds snapshot files st m hm, hmh⟩

theorem syncFile_minted (meta : String → Option String)
    (pageIds : Nat → String) (snapshot : List Mapping) (st : SyncState)
    (name : String)
    (hsnap : snapshot.any (fun m => m.fileHash = fileHashOf name) = false)
    (cid : String) (hmeta : meta (fileHashOf name) = some cid) :
    hashSynced (syncFile meta pageIds snapshot st name).mappings
      (fileHashOf name) := by
  unfold syncFile
  dsimp only
  rw [hsnap]
  simp only [Bool.false_eq_true, if_false, hmeta]
  exact ⟨{ evidenceId := pageIds st.pageCount
           chittyId := cid
           fileHash := fileHashOf name },
         List.mem_append_right _ (List.mem_singleton.mpr rfl), rfl⟩

theorem syncFold_covers (meta : String → Option String)
    (pageIds : Nat → String) (snapshot : List Mapping) :
    ∀ (files : List String) (st : SyncState) (name : String),
      name ∈ files →
      hashSynced snapshot (fileHashOf name) ∨
      meta (fileHashOf name) = none ∨
      hashSynced (files.foldl (syncFile meta pageIds snapshot) st).mappings
        (fileHashOf name) := by
  intro files
  induction files with
  | nil => intro st name hname; cases hname
  | cons f fs ih =>
    intro st name hname
    rcases List.mem_cons.mp hname with hf | hfs
    · subst hf
      cases hsnap : snapshot.any (fun m => m.fileHash = fileHashOf name) with
      | true =>
        left
        rcases List.any_eq_true.mp hsnap with ⟨m, hm, hmh⟩
        exact ⟨m, hm, of_decide_eq_true hmh⟩
      | false =>
        cases hmeta : meta (fileHashOf name) with
        | none => right; left; rfl
        | some cid =>
          right; right
          simp only [List.foldl_cons]
          exact syncFold_hashSynced_mono meta pageIds snapshot fs _ _
            (syncFile_minted meta pageIds snapshot st name hsnap cid hmeta)
    · simp only [List.foldl_cons]
      exact ih _ name hfs

theorem syncFile_skips (meta : String → Option String)
    (pageIds : Nat → String) (snapshot : List Mapping) (st : SyncState)
    (name : String)
    (hcov : hashSynced snapshot (fileHashOf name) ∨
            meta (fileHashOf name) = none) :
    syncFile meta pageIds snapshot st name = st := by
  unfold syncFile
  dsimp only
  rcases hcov with hs | hm
  · rcases hs with ⟨m, hm, hmh⟩
    rw [if_pos]
    exact List.any_eq_true.mpr ⟨m, hm, decide_eq_true hmh⟩
  · cases hsnap : snapshot.any (fun m => m.fileHash = fileHashOf name) with
    | true => simp
    | false =>
      simp only [Bool.false_eq_true, if_false, hm]

theorem syncFold_skips (meta : String → Option String)
    (pageIds : Nat → String) (snapshot : List Mapping) :
    ∀ (files : List String) (st : SyncState),
      (∀ name ∈ files,
        hashSynced snapshot (fileHashOf name) ∨ meta (fileHashOf name) = none) →
      files.foldl (syncFile meta pageIds snapshot) st = st := by
  intro files
  induction files with
  | nil => intro st _; rfl
  | cons f fs ih =>
    intro st hcov
    simp only [List.foldl_cons]
    rw [syncFile_skips meta pageIds snapshot st f (hcov f (List.mem_cons_self f fs))]
    exact ih st (fun name hn => hcov name (List.mem_cons_of_mem f hn))

end LedgerBridge

/-! ## Claims -/

/-- C1, counterexample: `ChittyOSEvidenceAnalyzer.request_chitty_id` keeps
no digest→identifier cache — even when a mapping for the digest already
exists (here: the first call has just returned `CID-A` for digest `d`), a
second mint call for the same digest still issues a network call (the call
count is `1`, not `0`) and returns whatever the service freshly mints, so
two calls for one digest can yield two different identifiers. -/
theorem claim_C1_counterexample :
    Analyzer.request_chitty_id (some "tok") "d" "CID-A" = Except.ok ("CID-A", 1) ∧
    Analyzer.request_chitty_id (some "tok") "d" "CID-B" = Except.ok ("CID-B", 1) ∧
    ("CID-A" : String) ≠ "CID-B" :=
  ⟨rfl, rfl, by decide⟩

/-- C1, amended: idempotence holds one layer up, in
`ChittyLedgerBridge.sync_pending_evidence` — a flat file whose hash prefix
already appears in `evidence_mappings.json` is skipped without a mint, so
running the sync a second time over the same flat-output listing (with the
mappings the first run persisted, and any fresh Notion page-id supply)
mints zero new entries. -/
theorem claim_C1_rerun_sync_mints_zero (meta : String → Option String)
    (pageIds pageIds2 : Nat → String) (persisted : List LedgerBridge.Mapping)
    (files : List String) :
    (LedgerBridge.sync_pending_evidence meta pageIds2
      (LedgerBridge.sync_pending_evidence meta pageIds persisted files).mappings
      files).synced = 0 := by
  set ms1 := (LedgerBridge.sync_pending_evidence meta pageIds persisted files).mappings with hms1
  unfold LedgerBridge.sync_pending_evidence
  rw [LedgerBridge.syncFold_skips]
  intro name hname
  have hcov := LedgerBridge.syncFold_covers meta pageIds persisted files
    { mappings := persisted, pageCount := 0, synced := 0 } name hname
  rcases hcov with hsnap | hmeta | hfin
  · left
    rcases hsnap with ⟨m, hm, hmh⟩
    refine ⟨m, ?_, hmh⟩
    rw [hms1]
    unfold LedgerBridge.sync_pending_evidence
    exact LedgerBridge.syncFold_mappings_mono meta pageIds persisted files _ m hm
  · right; exact hmeta
  · left
    rw [hms1]
    exact hfin

/-- C3: the claim says the rate-limit retry is capped and the call
eventually fails under sustained rate-limiting.  The code
(`request_chitty_id` in src/add_chittyids_to_csv.py) instead retries by
unbounded self-recursion: on a stream of `n` consecutive HTTP 429
responses it makes `n` attempts without ever failing (first conjunct), so
no cap bounds the attempt count over all inputs (second conjunct). -/
theorem claim_C3_rate_limit_retry_unbounded :
    (∀ n : Nat,
      CsvIds.request_chitty_id (some "tok")
        (List.replicate n CsvIds.MintResp.rateLimited) = (none, n)) ∧
    ¬ ∃ cap : Nat, ∀ rs : List CsvIds.MintResp, CsvIds.attemptsOn rs ≤ cap := by
  have hrep : ∀ n : Nat,
      CsvIds.request_chitty_id (some "tok")
        (List.replicate n CsvIds.MintResp.rateLimited) = (none, n) := by
    intro n
    induction n with
    | zero => rfl
    | succ k ih =>
      simp only [List.replicate, CsvIds.request_chitty_id, ih]
  refine ⟨hrep, ?_⟩
  rintro ⟨cap, hcap⟩
  have h := hcap (List.replicate (cap + 1) CsvIds.MintResp.rateLimited)
  unfold CsvIds.attemptsOn at h
  rw [hrep (cap + 1)] at h
  omega

/-- C4: the claim says no code path assigns a locally generated placeholder
identifier on mint failure.  Three code paths do: `process_timeline_csv`
records `ERROR_{idx}` in `service_chitty_id` when the mint request for a
row raised; `generate_timeline` fills the `chitty_id` column with
`PENDING_CHITTYID_{row}_{case_id}`; and the gdrive linker assigns a
`LOCAL-DOC-…` identifier computed locally from the file name alone. -/
theorem claim_C4_local_placeholder_assigned :
    CsvIds.rowServiceId 0
      { description := "wire transfer to escrow"
        mint := Except.error "ChittyID service error: 500" } = "ERROR_0" ∧
    Analyzer.timelineChittyId 0 "2024D007847" = "PENDING_CHITTYID_0_2024D007847" ∧
    ∃ tail : String,
      GdriveLinker.generate_chitty_id demoSha "Timeline Analysis" "2509" =
        "LOCAL-DOC-" ++ "2509" ++ "-" ++ tail :=
  ⟨by decide, by decide, ⟨_, rfl⟩⟩

/-- C10: `generate_chitty_id` reads only the file's name (and the ambient
`%y%m` timestamp): two documents with equal names get the identical
`LOCAL-DOC` identifier in the same month, whatever their contents. -/
theorem claim_C10_local_id_function_of_name_and_month
    (sha : Bytes → String) (f1 f2 : GdriveLinker.DriveFile) (yymm : String)
    (h : f1.name = f2.name) :
    GdriveLinker.chittyIdFor sha f1 yymm = GdriveLinker.chittyIdFor sha f2 yymm := by
  unfold GdriveLinker.chittyIdFor
  rw [h]

/-- C10 witness: two documents with the same name and different contents
receive the identical identifier. -/
theorem claim_C10_witness :
    (GdriveLinker.DriveFile.mk "contract.pdf" [1, 2, 3]).content ≠
      (GdriveLinker.DriveFile.mk "contract.pdf" [9, 9]).content ∧
    GdriveLinker.chittyIdFor demoSha (GdriveLinker.DriveFile.mk "contract.pdf" [1, 2, 3]) "2510" =
      GdriveLinker.chittyIdFor demoSha (GdriveLinker.DriveFile.mk "contract.pdf" [9, 9]) "2510" :=
  ⟨by decide,
   claim_C10_local_id_function_of_name_and_month demoSha _ _ "2510" rfl⟩

namespace Dedupe

/-- Whether `find_duplicates` scans this entry into a bucket, and with
which digest. -/
def scansTo (sha : Bytes → String) (k : String) (f : FileEntry) : Bool :=
  !(strStartsWith (baseName f.path) ".") && (calculate_file_hash sha f == some k)

theorem bucketOf_bucketAdd_same (m : List (String × List String)) (k p : String) :
    bucketOf (bucketAdd m k p) k = bucketOf m k ++ [p] := by
  induction m with
  | nil => simp [bucketAdd, bucketOf, List.find?]
  | cons e rest ih =>
    by_cases he : e.1 = k
    · simp [bucketAdd, he, bucketOf, List.find?]
    · simp only [bucketAdd, if_neg he, bucketOf, List.find?, decide_eq_false he,
        Bool.false_eq_true]
      simpa [bucketOf] using ih

theorem bucketOf_bucketAdd_other (m : List (String × List String))
    (k k₁ p : String) (hk : k₁ ≠ k) :
    bucketOf (bucketAdd m k p) k₁ = bucketOf m k₁ := by
  induction m with
  | nil => simp [bucketAdd, bucketOf, List.find?, Ne.symm hk]
  | cons e rest ih =>
    by_cases he : e.1 = k
    · have h1 : ¬ e.1 = k₁ := by rw [he]; exact Ne.symm hk
      simp only [bucketAdd, if_pos he, bucketOf, List.find?, decide_eq_false h1,
        Bool.false_eq_true]
    · simp only [bucketAdd, if_neg he, bucketOf, List.find?]
      by_cases he1 : e.1 = k₁
      · simp [decide_eq_true he1]
      · simp only [decide_eq_false he1, Bool.false_eq_true]
        simpa [bucketOf] using ih

theorem bucketOf_mem (m : List (String × List String)) (k : String)
    (hne : bucketOf m k ≠ []) : (k, bucketOf m k) ∈ m := by
  induction m with
  | nil => simp [bucketOf, List.find?] at hne
  | cons e rest ih =>
    by_cases he : e.1 = k
    · simp only [bucketOf, List.find?, decide_eq_true he]
      have hek : (k, e.2) = e := by rw [← he]
      rw [hek]
      exact List.mem_cons_self e rest
    · simp only [bucketOf, List.find?, decide_eq_false he, Bool.false_eq_true] at hne ⊢
      right
      simpa [bucketOf] using ih (by simpa [bucketOf] using hne)

theorem hashFiles_bucket (sha : Bytes → String) (k : String) :
    ∀ (listing : List FileEntry) (m : List (String × List String)),
      bucketOf
        (listing.foldl
          (fun m f =>
            if strStartsWith (baseName f.path) "." then m
            else
              match calculate_file_hash sha f with
              | none => m
              | some h => bucketAdd m h f.path)
          m) k =
      bucketOf m k ++ (listing.filter (scansTo sha k)).map (fun f => f.path) := by
  intro listing
  induction listing with
  | nil => intro m; simp
  | cons f rest ih =>
    intro m
    simp only [List.foldl_cons]
    by_cases hdot : strStartsWith (baseName f.path) "."
    · have hs : scansTo sha k f = false := by
        simp [scansTo, hdot]
      simp only [if_pos hdot, List.filter_cons, hs]
      simpa using ih m
    · simp only [if_neg hdot]
      cases hh : calculate_file_hash sha f with
      | none =>
        have hs : scansTo sha k f = false := by
          simp [scansTo, hh]
        simp only [List.filter_cons, hs]
        simpa using ih m
      | some h =>
        by_cases hk : h = k
        · subst hk
          have hs : scansTo sha h f = true := by
            simp [scansTo, hdot, hh]
          simp only [List.filter_cons, hs]
          rw [ih (bucketAdd m h f.path), bucketOf_bucketAdd_same]
          simp
        · have hs : scansTo sha k f = false := by
            simp [scansTo, hdot, hh, hk]
          simp only [List.filter_cons, hs]
          rw [ih (bucketAdd m h f.path), bucketOf_bucketAdd_other m h k f.path (Ne.symm hk)]
          simp

theorem two_mem_one_lt_length {α : Type} {l : List α} {a b : α}
    (ha : a ∈ l) (hb : b ∈ l) (hne : a ≠ b) : 1 < l.length := by
  match l with
  | [] => cases ha
  | [x] =>
    rw [List.mem_singleton] at ha hb
    exact absurd (ha.trans hb.symm) hne
  | x :: y :: rest => simp [List.length]

end Dedupe

/-- C2, amended: for every two *scanned* files — distinct paths, base
names not starting with `.` (the finder skips hidden-named files), both
readable — with identical byte contents, `calculate_file_hash` yields the
same digest and `find_duplicates` puts both paths into one group keyed by
that digest. -/
theorem claim_C2_content_identity (sha : Bytes → String)
    (listing : List Dedupe.FileEntry) (f1 f2 : Dedupe.FileEntry) (c : Bytes)
    (h1 : f1 ∈ listing) (h2 : f2 ∈ listing) (hne : f1.path ≠ f2.path)
    (hv1 : strStartsWith (Dedupe.baseName f1.path) "." = false)
    (hv2 : strStartsWith (Dedupe.baseName f2.path) "." = false)
    (hc1 : f1.content = some c) (hc2 : f2.content = some c) :
    Dedupe.calculate_file_hash sha f1 = Dedupe.calculate_file_hash sha f2 ∧
    ∃ g ∈ Dedupe.find_duplicates sha listing,
      g.1 = sha c ∧ f1.path ∈ g.2 ∧ f2.path ∈ g.2 := by
  have hh1 : Dedupe.calculate_file_hash sha f1 = some (sha c) := by
    unfold Dedupe.calculate_file_hash
    rw [hc1]
  have hh2 : Dedupe.calculate_file_hash sha f2 = some (sha c) := by
    unfold Dedupe.calculate_file_hash
    rw [hc2]
  refine ⟨hh1.trans hh2.symm, ?_⟩
  have hbucket :
      Dedupe.bucketOf (Dedupe.hashFiles sha listing) (sha c) =
        (listing.filter (Dedupe.scansTo sha (sha c))).map
          (fun f => f.path) := by
    unfold Dedupe.hashFiles
    rw [Dedupe.hashFiles_bucket sha (sha c) listing []]
    simp [Dedupe.bucketOf, List.find?]
  have hs1 : Dedupe.scansTo sha (sha c) f1 = true := by
    simp [Dedupe.scansTo, hv1, hh1]
  have hs2 : Dedupe.scansTo sha (sha c) f2 = true := by
    simp [Dedupe.scansTo, hv2, hh2]
  have hp1 : f1.path ∈ Dedupe.bucketOf (Dedupe.hashFiles sha listing) (sha c) := by
    rw [hbucket]
    exact List.mem_map.mpr ⟨f1, List.mem_filter.mpr ⟨h1, hs1⟩, rfl⟩
  have hp2 : f2.path ∈ Dedupe.bucketOf (Dedupe.hashFiles sha listing) (sha c) := by
    rw [hbucket]
    exact List.mem_map.mpr ⟨f2, List.mem_filter.mpr ⟨h2, hs2⟩, rfl⟩
  have hlen : 1 < (Dedupe.bucketOf (Dedupe.hashFiles sha listing) (sha c)).length :=
    Dedupe.two_mem_one_lt_length hp1 hp2 hne
  have hmem :
      (sha c, Dedupe.bucketOf (Dedupe.hashFiles sha listing) (sha c)) ∈
        Dedupe.hashFiles sha listing := by
    apply Dedupe.bucketOf_mem
    intro hempty
    rw [hempty] at hp1
    cases hp1
  refine ⟨(sha c, Dedupe.bucketOf (Dedupe.hashFiles sha listing) (sha c)), ?_, rfl, hp1, hp2⟩
  unfold Dedupe.find_duplicates
  exact List.mem_filter.mpr ⟨hmem, by simpa using hlen⟩

/-- C2 witness: two readable visible files with equal contents and
different paths land in one duplicate group under the stand-in digest. -/
theorem claim_C2_witness :
    Dedupe.calculate_file_hash demoSha (Dedupe.FileEntry.mk "pkg/copyA.txt" (some [7, 7])) =
      Dedupe.calculate_file_hash demoSha (Dedupe.FileEntry.mk "pkg/sub/copyB.txt" (some [7, 7])) ∧
    ∃ g ∈ Dedupe.find_duplicates demoSha
        [Dedupe.FileEntry.mk "pkg/copyA.txt" (some [7, 7]),
         Dedupe.FileEntry.mk "pkg/sub/copyB.txt" (some [7, 7])],
      g.1 = demoSha [7, 7] ∧ "pkg/copyA.txt" ∈ g.2 ∧ "pkg/sub/copyB.txt" ∈ g.2 :=
  claim_C2_content_identity demoSha _ _ _ [7, 7]
    (by decide) (by decide) (by decide) (by decide) (by decide) rfl rfl

/-- C2, counterexample to the claim as stated: the finder skips every file
whose *base name* starts with `.`, so a hidden file with identical bytes —
even one inside a subdirectory, whose full path starts with `p` — is *not*
placed in any duplicate group: "regardless of their names" fails for
hidden-named files. -/
theorem claim_C2_counterexample :
    (Dedupe.FileEntry.mk "pkg/.hidden_copy" (some [7, 7])).content =
      (Dedupe.FileEntry.mk "pkg/evidence.txt" (some [7, 7])).content ∧
    ¬ ∃ g ∈ Dedupe.find_duplicates demoSha
        [Dedupe.FileEntry.mk "pkg/evidence.txt" (some [7, 7]),
         Dedupe.FileEntry.mk "pkg/.hidden_copy" (some [7, 7])],
      "pkg/.hidden_copy" ∈ g.2 :=
  ⟨rfl, by decide⟩

namespace RcloneSync

/-- A file the loop attempts and whose sync succeeds. -/
def isSuccess (f : SyncFile) : Bool :=
  !(skipsFile f) && !(failsSync f)

/-- A file the loop attempts and records as an error. -/
def isError (f : SyncFile) : Bool :=
  !(skipsFile f) && failsSync f

theorem runSync_from (files : List SyncFile) :
    ∀ st : SyncStats,
      files.foldl syncStep st =
        { success := st.success + files.countP isSuccess
          errors := st.errors + files.countP isError
          skipped := st.skipped + files.countP skipsFile
          syncedNames :=
            st.syncedNames ++ (files.filter isSuccess).map (fun f => f.name) } := by
  induction files with
  | nil => intro st; simp
  | cons f fs ih =>
    intro st
    rw [List.foldl_cons, ih]
    cases hskip : skipsFile f with
    | true =>
      have hsucc : isSuccess f = false := by simp [isSuccess, hskip]
      have herr : isError f = false := by simp [isError, hskip]
      simp [syncStep, hskip, hsucc, herr, List.countP_cons, List.filter_cons]
      omega
    | false =>
      cases hfail : failsSync f with
      | true =>
        have hsucc : isSuccess f = false := by simp [isSuccess, hfail]
        have herr : isError f = true := by simp [isError, hskip, hfail]
        cases f with
        | mk name outcome =>
          cases outcome with
          | hasId pid => simp [failsSync] at hfail
          | noId msg =>
            simp [syncStep, hskip, hsucc, herr, List.countP_cons, List.filter_cons]
            omega
          | raises msg =>
            simp [syncStep, hskip, hsucc, herr, List.countP_cons, List.filter_cons]
            omega
      | false =>
        have hsucc : isSuccess f = true := by simp [isSuccess, hskip, hfail]
        have herr : isError f = false := by simp [isError, hfail]
        cases f with
        | mk name outcome =>
          cases outcome with
          | hasId pid =>
            simp [syncStep, hskip, hsucc, herr, List.countP_cons, List.filter_cons]
            omega
          | noId msg => simp [failsSync] at hfail
          | raises msg => simp [failsSync] at hfail

/-- The run's counters and effects as functions of the file list alone. -/
theorem runSync_counts (files : List SyncFile) :
    runSync files =
      { success := files.countP isSuccess
        errors := files.countP isError
        skipped := files.countP skipsFile
        syncedNames := (files.filter isSuccess).map (fun f => f.name) } := by
  unfold runSync
  rw [runSync_from]
  simp

end RcloneSync

/-- C5: per-file fault isolation in the batch loops.  Inserting a failing
file `f` anywhere into the rclone→Notion sync run leaves every other
file's contribution unchanged — the success and skip counters, and the
list of files actually synced, equal those of the run without `f` — while
the failure is recorded against `f` alone (`errors` grows by exactly one)
and the run still completes with its final-summary statistics.  Likewise
`process_input_files` over a walk containing a file whose
`archive_source_document` raises reports the same `processed_count` as the
walk without it. -/
theorem claim_C5_per_file_fault_isolation
    (l1 l2 : List RcloneSync.SyncFile) (f : RcloneSync.SyncFile)
    (hnoskip : RcloneSync.skipsFile f = false)
    (hfail : RcloneSync.failsSync f = true)
    (w1 w2 : List Analyzer.WalkFile) (g : Analyzer.WalkFile)
    (herr : g.archive.isOk = false) :
    (RcloneSync.runSync (l1 ++ f :: l2)).success =
      (RcloneSync.runSync (l1 ++ l2)).success ∧
    (RcloneSync.runSync (l1 ++ f :: l2)).skipped =
      (RcloneSync.runSync (l1 ++ l2)).skipped ∧
    (RcloneSync.runSync (l1 ++ f :: l2)).syncedNames =
      (RcloneSync.runSync (l1 ++ l2)).syncedNames ∧
    (RcloneSync.runSync (l1 ++ f :: l2)).errors =
      (RcloneSync.runSync (l1 ++ l2)).errors + 1 ∧
    Analyzer.processInputCount (w1 ++ g :: w2) =
      Analyzer.processInputCount (w1 ++ w2) := by
  have hsucc : RcloneSync.isSuccess f = false := by
    simp [RcloneSync.isSuccess, hfail]
  have herrf : RcloneSync.isError f = true := by
    simp [RcloneSync.isError, hnoskip, hfail]
  have hproc : Analyzer.processesFile g = false := by
    simp [Analyzer.processesFile, herr]
  simp [RcloneSync.runSync_counts, Analyzer.processInputCount,
    List.countP_append, List.countP_cons, List.filter_append, List.filter_cons,
    hsucc, herrf, hnoskip, hproc]
  omega

/-- C5 witness: a three-file batch whose middle file raises — the other
two files' results and the skip count match the two-file run, with one
error recorded. -/
theorem claim_C5_witness :
    (RcloneSync.skipsFile
        (RcloneSync.SyncFile.mk "bad.pdf" (RcloneSync.SyncOutcome.raises "boom")) = false) ∧
    (RcloneSync.failsSync
        (RcloneSync.SyncFile.mk "bad.pdf" (RcloneSync.SyncOutcome.raises "boom")) = true) ∧
    ((RcloneSync.runSync
        [RcloneSync.SyncFile.mk "a.pdf" (RcloneSync.SyncOutcome.hasId "p1"),
         RcloneSync.SyncFile.mk "bad.pdf" (RcloneSync.SyncOutcome.raises "boom"),
         RcloneSync.SyncFile.mk "c.pdf" (RcloneSync.SyncOutcome.hasId "p2")]).success =
      (RcloneSync.runSync
        [RcloneSync.SyncFile.mk "a.pdf" (RcloneSync.SyncOutcome.hasId "p1"),
         RcloneSync.SyncFile.mk "c.pdf" (RcloneSync.SyncOutcome.hasId "p2")]).success ∧
     (RcloneSync.runSync
        [RcloneSync.SyncFile.mk "a.pdf" (RcloneSync.SyncOutcome.hasId "p1"),
         RcloneSync.SyncFile.mk "bad.pdf" (RcloneSync.SyncOutcome.raises "boom"),
         RcloneSync.SyncFile.mk "c.pdf" (RcloneSync.SyncOutcome.hasId "p2")]).skipped =
      (RcloneSync.runSync
        [RcloneSync.SyncFile.mk "a.pdf" (RcloneSync.SyncOutcome.hasId "p1"),
         RcloneSync.SyncFile.mk "c.pdf" (RcloneSync.SyncOutcome.hasId "p2")]).skipped ∧
     (RcloneSync.runSync
        [RcloneSync.SyncFile.mk "a.pdf" (RcloneSync.SyncOutcome.hasId "p1"),
         RcloneSync.SyncFile.mk "bad.pdf" (RcloneSync.SyncOutcome.raises "boom"),
         RcloneSync.SyncFile.mk "c.pdf" (RcloneSync.SyncOutcome.hasId "p2")]).syncedNames =
      (RcloneSync.runSync
        [RcloneSync.SyncFile.mk "a.pdf" (RcloneSync.SyncOutcome.hasId "p1"),
         RcloneSync.SyncFile.mk "c.pdf" (RcloneSync.SyncOutcome.hasId "p2")]).syncedNames ∧
     (RcloneSync.runSync
        [RcloneSync.SyncFile.mk "a.pdf" (RcloneSync.SyncOutcome.hasId "p1"),
         RcloneSync.SyncFile.mk "bad.pdf" (RcloneSync.SyncOutcome.raises "boom"),
         RcloneSync.SyncFile.mk "c.pdf" (RcloneSync.SyncOutcome.hasId "p2")]).errors =
      (RcloneSync.runSync
        [RcloneSync.SyncFile.mk "a.pdf" (RcloneSync.SyncOutcome.hasId "p1"),
         RcloneSync.SyncFile.mk "c.pdf" (RcloneSync.SyncOutcome.hasId "p2")]).errors + 1 ∧
     Analyzer.processInputCount
        [Analyzer.WalkFile.mk "a.pdf" ".pdf" (Except.ok "CID-1"),
         Analyzer.WalkFile.mk "bad.pdf" ".pdf" (Except.error "boom"),
         Analyzer.WalkFile.mk "c.md" ".md" (Except.ok "CID-2")] =
      Analyzer.processInputCount
        [Analyzer.WalkFile.mk "a.pdf" ".pdf" (Except.ok "CID-1"),
         Analyzer.WalkFile.mk "c.md" ".md" (Except.ok "CID-2")]) :=
  ⟨by decide, by decide,
   claim_C5_per_file_fault_isolation
     [RcloneSync.SyncFile.mk "a.pdf" (RcloneSync.SyncOutcome.hasId "p1")]
     [RcloneSync.SyncFile.mk "c.pdf" (RcloneSync.SyncOutcome.hasId "p2")]
     (RcloneSync.SyncFile.mk "bad.pdf" (RcloneSync.SyncOutcome.raises "boom"))
     (by decide) (by decide)
     [Analyzer.WalkFile.mk "a.pdf" ".pdf" (Except.ok "CID-1")]
     [Analyzer.WalkFile.mk "c.md" ".md" (Except.ok "CID-2")]
     (Analyzer.WalkFile.mk "bad.pdf" ".pdf" (Except.error "boom"))
     (by decide)⟩

/-- C6, counterexample: `calculate_file_hash` catches the read error and
returns the sentinel `None` instead of letting the `IOError` propagate, so
"never signals failure by returning a non-error sentinel value such as
None" is false for it. -/
theorem claim_C6_counterexample :
    Dedupe.calculate_file_hash demoSha
      (Dedupe.FileEntry.mk "locked.pdf" none) = none :=
  rfl

/-- C6, amended: on an unreadable file the CLI's `generate_file_hash`
propagates the `IOError` while dedupe's `calculate_file_hash` catches it
and returns `None` (its caller skips `None` results); on a readable file
both return the digest of the bytes. -/
theorem claim_C6_hash_failure_split (sha : Bytes → String)
    (f : Dedupe.FileEntry) :
    (f.content = none →
      Dedupe.calculate_file_hash sha f = none ∧
      EvidenceCli.generate_file_hash sha f = Except.error "IOError") ∧
    (∀ c : Bytes, f.content = some c →
      Dedupe.calculate_file_hash sha f = some (sha c) ∧
      EvidenceCli.generate_file_hash sha f = Except.ok (sha c)) := by
  constructor
  · intro hn
    unfold Dedupe.calculate_file_hash EvidenceCli.generate_file_hash
    rw [hn]
    exact ⟨rfl, rfl⟩
  · intro c hc
    unfold Dedupe.calculate_file_hash EvidenceCli.generate_file_hash
    rw [hc]
    exact ⟨rfl, rfl⟩

/-- C6 witness: both branches at concrete files. -/
theorem claim_C6_witness :
    (Dedupe.calculate_file_hash demoSha (Dedupe.FileEntry.mk "gone.pdf" none) = none ∧
     EvidenceCli.generate_file_hash demoSha (Dedupe.FileEntry.mk "gone.pdf" none) =
       Except.error "IOError") ∧
    (Dedupe.calculate_file_hash demoSha (Dedupe.FileEntry.mk "ok.txt" (some [3, 4])) =
       some (demoSha [3, 4]) ∧
     EvidenceCli.generate_file_hash demoSha (Dedupe.FileEntry.mk "ok.txt" (some [3, 4])) =
       Except.ok (demoSha [3, 4])) :=
  ⟨(claim_C6_hash_failure_split demoSha (Dedupe.FileEntry.mk "gone.pdf" none)).1 rfl,
   (claim_C6_hash_failure_split demoSha (Dedupe.FileEntry.mk "ok.txt" (some [3, 4]))).2
     [3, 4] rfl⟩

/-- C7, counterexample: the archiving pass of `run_analysis` runs one glob
per pattern (`.md` before `.txt`) over the unsorted filesystem
enumeration, so even an alphabetically sorted directory listing is
processed out of path order: `a.txt` before `b.md` on disk becomes `b.md`
before `a.txt` in processing. -/
theorem claim_C7_counterexample :
    Analyzer.archiveOrder ["a.txt", "b.md"] = ["b.md", "a.txt"] ∧
    (["b.md", "a.txt"] : List String) ≠ ["a.txt", "b.md"] :=
  ⟨by decide, by decide⟩

/-- C7, amended: the orchestrator processes the files each glob yields in
filesystem-enumeration order, with no sort; but the per-run statistics
(archived count, failed count) are functions of the *multiset* of
enumerated paths, so two runs whose enumerations are permutations of each
other — in particular, repeated runs over an unchanged file set — produce
identical statistics, and their processing orders are permutations. -/
theorem claim_C7_stats_invariant_under_enumeration (ok : String → Bool)
    (l l2 : List String) (hp : l.Perm l2) :
    Analyzer.archivedCount ok l = Analyzer.archivedCount ok l2 ∧
    Analyzer.archiveFailedCount ok l = Analyzer.archiveFailedCount ok l2 ∧
    (Analyzer.archiveOrder l).Perm (Analyzer.archiveOrder l2) := by
  have horder : (Analyzer.archiveOrder l).Perm (Analyzer.archiveOrder l2) := by
    unfold Analyzer.archiveOrder
    induction Analyzer.patterns with
    | nil => simp
    | cons e es ih =>
      simp only [List.flatMap_cons]
      exact (hp.filter _).append ih
  refine ⟨?_, ?_, horder⟩
  · unfold Analyzer.archivedCount
    exact horder.countP_eq _
  · unfold Analyzer.archiveFailedCount
    exact horder.countP_eq _

/-- C7 witness: two enumerations of the same two files. -/
theorem claim_C7_witness :
    (["report.md", "notes.md"] : List String).Perm ["notes.md", "report.md"] ∧
    Analyzer.archivedCount (fun _ => true) ["report.md", "notes.md"] =
      Analyzer.archivedCount (fun _ => true) ["notes.md", "report.md"] :=
  ⟨List.Perm.swap "notes.md" "report.md" [],
   (claim_C7_stats_invariant_under_enumeration (fun _ => true)
      ["report.md", "notes.md"] ["notes.md", "report.md"]
      (List.Perm.swap "notes.md" "report.md" [])).1⟩

/-- C8, counterexample: `add_chittyids_to_csv.main` exits `0` although its
only row failed to mint (zero rows processed, the row recorded as
`ERROR_0`), and `evidence_cli.main` uses the *same* exit code `1` for a
missing ChittyOS data directory (the ledger that cannot be opened) as for
any other action failure — no distinct non-zero code exists. -/
theorem claim_C8_counterexample :
    CsvIds.mainExit true false
      [CsvIds.CsvRow.mk "wire transfer" (Except.error "ChittyID service error: 503")] = 0 ∧
    (CsvIds.process_timeline_csv
      [CsvIds.CsvRow.mk "wire transfer" (Except.error "ChittyID service error: 503")]).2 = 0 ∧
    EvidenceCli.mainExit (EvidenceCli.CliEnv.mk false false) = 1 ∧
    EvidenceCli.mainExit (EvidenceCli.CliEnv.mk true true) = 1 :=
  ⟨rfl, rfl, rfl, rfl⟩

/-- C8, amended: `evidence_cli.main` exits `0` exactly when initialization
and the chosen action complete without an exception and `1` on every
failure (the unreadable ledger directory shares code `1` with every other
error), and `add_chittyids_to_csv.main` exits `0` whenever the CSV pass
completes — independently of how many rows failed to mint — and `1` only
when the token is missing or the CSV pass itself raises. -/
theorem claim_C8_exit_codes (e : EvidenceCli.CliEnv)
    (tokenPresent csvReadFails : Bool) (rows : List CsvIds.CsvRow) :
    EvidenceCli.mainExit e =
      (if e.dataDirExists && !e.actionRaises then 0 else 1) ∧
    CsvIds.mainExit tokenPresent csvReadFails rows =
      (if tokenPresent && !csvReadFails then 0 else 1) := by
  constructor
  · cases e with
    | mk d a => cases d <;> cases a <;> rfl
  · cases tokenPresent <;> cases csvReadFails <;> rfl

namespace Dedupe

/-- The non-first paths of all groups, in processing order. -/
def tailsOf (dups : List (String × List String)) : List String :=
  dups.flatMap (fun g => g.2.drop 1)

theorem statSize_cons_other (e : String × Nat) (rest : Fs) (q : String)
    (hne : ¬ e.1 = q) : statSize (e :: rest) q = statSize rest q := by
  unfold statSize
  simp only [List.find?, decide_eq_false hne, Bool.false_eq_true]

theorem statSize_unlink_other (fs : Fs) (p q : String) (hne : q ≠ p) :
    statSize (unlink fs p) q = statSize fs q := by
  induction fs with
  | nil => rfl
  | cons e rest ih =>
    by_cases hep : e.1 = p
    · have hq : ¬ e.1 = q := by rw [hep]; exact fun h => hne h.symm
      rw [show unlink (e :: rest) p = unlink rest p from by
            unfold unlink; rw [List.filter_cons_of_neg (by simp [hep])]]
      rw [ih, statSize_cons_other e rest q hq]
    · rw [show unlink (e :: rest) p = e :: unlink rest p from by
            unfold unlink; rw [List.filter_cons_of_pos (by simp [hep])]]
      by_cases heq : e.1 = q
      · unfold statSize
        simp only [List.find?, decide_eq_true heq]
      · rw [statSize_cons_other e _ q heq, statSize_cons_other e rest q heq, ih]

theorem dry_fold (ops : List String) :
    ∀ (fs : Fs) (r s : Nat),
      ops.foldl (rmFile true) { removed := r, saved := s, fs := fs } =
        { removed := r + ops.countP (fun p => (statSize fs p).isSome)
          saved := s + (ops.map (fun p => (statSize fs p).getD 0)).sum
          fs := fs } := by
  induction ops with
  | nil => intro fs r s; simp
  | cons p rest ih =>
    intro fs r s
    rw [List.foldl_cons]
    cases hstat : statSize fs p with
    | none =>
      rw [show rmFile true { removed := r, saved := s, fs := fs } p =
            { removed := r, saved := s, fs := fs } from by
          unfold rmFile; rw [hstat]]
      rw [ih]
      simp [List.countP_cons, hstat]
    | some sz =>
      rw [show rmFile true { removed := r, saved := s, fs := fs } p =
            { removed := r + 1, saved := s + sz, fs := fs } from by
          unfold rmFile; rw [hstat]; rfl]
      rw [ih]
      simp [List.countP_cons, hstat, RmState.mk.injEq]
      omega

theorem wet_fold (ops : List String) :
    ∀ (fs : Fs) (r s : Nat), ops.Nodup →
      (ops.foldl (rmFile false) { removed := r, saved := s, fs := fs }).removed =
          r + ops.countP (fun p => (statSize fs p).isSome) ∧
      (ops.foldl (rmFile false) { removed := r, saved := s, fs := fs }).saved =
          s + (ops.map (fun p => (statSize fs p).getD 0)).sum ∧
      ∀ q, q ∉ ops →
        statSize (ops.foldl (rmFile false) { removed := r, saved := s, fs := fs }).fs q =
          statSize fs q := by
  induction ops with
  | nil => intro fs r s _; simp
  | cons p rest ih =>
    intro fs r s hnd
    have hp : p ∉ rest := (List.nodup_cons.mp hnd).1
    have hndr : rest.Nodup := (List.nodup_cons.mp hnd).2
    rw [List.foldl_cons]
    cases hstat : statSize fs p with
    | none =>
      rw [show rmFile false { removed := r, saved := s, fs := fs } p =
            { removed := r, saved := s, fs := fs } from by
          unfold rmFile; rw [hstat]]
      obtain ⟨h1, h2, h3⟩ := ih fs r s hndr
      refine ⟨?_, ?_, ?_⟩
      · rw [h1]; simp [List.countP_cons, hstat]
      · rw [h2]; simp [hstat]
      · intro q hq
        exact h3 q (fun hin => hq (List.mem_cons_of_mem p hin))
    | some sz =>
      rw [show rmFile false { removed := r, saved := s, fs := fs } p =
            { removed := r + 1, saved := s + sz, fs := unlink fs p } from by
          unfold rmFile; rw [hstat]; rfl]
      obtain ⟨h1, h2, h3⟩ := ih (unlink fs p) (r + 1) (s + sz) hndr
      have hrest : ∀ q ∈ rest, statSize (unlink fs p) q = statSize fs q := by
        intro q hq
        exact statSize_unlink_other fs p q (fun h => hp (h ▸ hq))
      refine ⟨?_, ?_, ?_⟩
      · rw [h1, List.countP_congr (fun a ha => by rw [hrest a ha])]
        simp [List.countP_cons, hstat]
        omega
      · rw [h2, List.map_congr_left (fun a ha => by rw [hrest a ha])]
        simp [hstat]
        omega
      · intro q hq
        have hqp : q ≠ p := fun h => hq (h ▸ List.mem_cons_self p rest)
        have hqrest : q ∉ rest := fun h => hq (List.mem_cons_of_mem p h)
        rw [h3 q hqrest, statSize_unlink_other fs p q hqp]

theorem remove_duplicates_flatten (dryRun : Bool) :
    ∀ (dups : List (String × List String)) (st : RmState),
      (∀ g ∈ dups, g.2 ≠ []) →
      dups.foldl (rmGroup dryRun) (some st) =
        some ((tailsOf dups).foldl (rmFile dryRun) st) := by
  intro dups
  induction dups with
  | nil => intro st _; rfl
  | cons g gs ih =>
    intro st hne
    rw [List.foldl_cons]
    cases hg : g.2 with
    | nil => exact absurd hg (hne g (List.mem_cons_self g gs))
    | cons p rest =>
      rw [show rmGroup dryRun (some st) g = some (rest.foldl (rmFile dryRun) st) from by
            unfold rmGroup; rw [hg]]
      rw [ih _ (fun g' hg' => hne g' (List.mem_cons_of_mem g hg'))]
      unfold tailsOf
      rw [List.flatMap_cons, List.foldl_append, hg]
      rfl

theorem tails_sublist (dups : List (String × List String)) :
    (tailsOf dups).Sublist (dups.flatMap (fun g => g.2)) := by
  unfold tailsOf
  induction dups with
  | nil => exact List.Sublist.refl _
  | cons g gs ih =>
    rw [List.flatMap_cons, List.flatMap_cons]
    exact (List.drop_sublist 1 g.2).append ih

theorem head_not_in_tails (dups : List (String × List String))
    (hnd : (dups.flatMap (fun g => g.2)).Nodup) :
    ∀ g ∈ dups, ∀ p rest, g.2 = p :: rest → p ∉ tailsOf dups := by
  induction dups with
  | nil => intro g hg; cases hg
  | cons g0 gs ih =>
    rw [List.flatMap_cons, List.nodup_append] at hnd
    obtain ⟨hnd0, hndgs, hdisj⟩ := hnd
    intro g hg p rest hgp hmem
    unfold tailsOf at hmem
    rw [List.flatMap_cons, List.mem_append] at hmem
    rcases List.mem_cons.mp hg with hgg0 | hggs
    · subst hgg0
      rcases hmem with hm0 | hmgs
      · rw [hgp] at hm0 hnd0
        simp only [List.drop_one, List.tail_cons] at hm0
        exact (List.nodup_cons.mp hnd0).1 hm0
      · rcases List.mem_flatMap.mp hmgs with ⟨g1, hg1, hpg1⟩
        have hpin : p ∈ gs.flatMap (fun g => g.2) :=
          List.mem_flatMap.mpr ⟨g1, hg1, (List.drop_sublist 1 g1.2).mem hpg1⟩
        exact hdisj (by rw [hgp]; exact List.mem_cons_self p rest) hpin
    · rcases hmem with hm0 | hmgs
      · have hpin : p ∈ gs.flatMap (fun g => g.2) :=
          List.mem_flatMap.mpr ⟨g, hggs, by rw [hgp]; exact List.mem_cons_self p rest⟩
        exact hdisj ((List.drop_sublist 1 g0.2).mem hm0) hpin
      · exact ih hndgs g hggs p rest hgp (by unfold tailsOf; exact hmgs)

end Dedupe

/-- C9: with the groups `find_duplicates` produces (non-empty path lists,
no path in two places) and every non-first path stat-able, `dry_run=True`
leaves the filesystem untouched yet returns exactly the
`(removed_count, saved_space)` pair of the destructive run — the number of
non-first paths across groups and the sum of their sizes — and in either
mode the first path of each group is never deleted. -/
theorem claim_C9_dry_run_parity (fs : Dedupe.Fs)
    (dups : List (String × List String))
    (hne : ∀ g ∈ dups, g.2 ≠ [])
    (hnd : (dups.flatMap (fun g => g.2)).Nodup)
    (hpres : ∀ p ∈ Dedupe.tailsOf dups, (Dedupe.statSize fs p).isSome = true) :
    ∃ stD stW : Dedupe.RmState,
      Dedupe.remove_duplicates fs dups true = some stD ∧
      Dedupe.remove_duplicates fs dups false = some stW ∧
      stD.fs = fs ∧
      stD.removed = stW.removed ∧
      stD.saved = stW.saved ∧
      stD.removed = (dups.map (fun g => g.2.length - 1)).sum ∧
      stD.saved =
        ((Dedupe.tailsOf dups).map (fun p => (Dedupe.statSize fs p).getD 0)).sum ∧
      (∀ g ∈ dups, ∀ p rest, g.2 = p :: rest →
        Dedupe.statSize stW.fs p = Dedupe.statSize fs p) := by
  have htnd : (Dedupe.tailsOf dups).Nodup := hnd.sublist (Dedupe.tails_sublist dups)
  have hflatD := Dedupe.remove_duplicates_flatten true dups
    { removed := 0, saved := 0, fs := fs } hne
  have hflatW := Dedupe.remove_duplicates_flatten false dups
    { removed := 0, saved := 0, fs := fs } hne
  have hdry := Dedupe.dry_fold (Dedupe.tailsOf dups) fs 0 0
  obtain ⟨hw1, hw2, hw3⟩ := Dedupe.wet_fold (Dedupe.tailsOf dups) fs 0 0 htnd
  have hcount : (Dedupe.tailsOf dups).countP
      (fun p => (Dedupe.statSize fs p).isSome) = (Dedupe.tailsOf dups).length :=
    List.countP_eq_length.mpr hpres
  have hlen : (Dedupe.tailsOf dups).length =
      (dups.map (fun g => g.2.length - 1)).sum := by
    unfold Dedupe.tailsOf
    simp only [List.length_flatMap]
    congr 1
    apply List.map_congr_left
    intro g _
    simp [Function.comp, List.length_drop]
  refine ⟨_, _, (by unfold Dedupe.remove_duplicates; exact hflatD),
          (by unfold Dedupe.remove_duplicates; exact hflatW), ?_, ?_, ?_, ?_, ?_, ?_⟩
  · rw [hdry]
  · rw [hdry, hw1]
  · rw [hdry, hw2]
  · rw [hdry]
    simpa [hcount] using hlen
  · rw [hdry]
    simp
  · intro g hg p rest hgp
    exact hw3 p (Dedupe.head_not_in_tails dups hnd g hg p rest hgp)

/-- C9 witness: two duplicate groups over a five-file filesystem. -/
theorem claim_C9_witness :
    ∃ stD stW : Dedupe.RmState,
      Dedupe.remove_duplicates
        [("keepA", 10), ("dupA1", 11), ("dupA2", 12), ("keepB", 20), ("dupB1", 21)]
        [("h1", ["keepA", "dupA1", "dupA2"]), ("h2", ["keepB", "dupB1"])] true = some stD ∧
      Dedupe.remove_duplicates
        [("keepA", 10), ("dupA1", 11), ("dupA2", 12), ("keepB", 20), ("dupB1", 21)]
        [("h1", ["keepA", "dupA1", "dupA2"]), ("h2", ["keepB", "dupB1"])] false = some stW ∧
      stD.fs =
        [("keepA", 10), ("dupA1", 11), ("dupA2", 12), ("keepB", 20), ("dupB1", 21)] ∧
      stD.removed = stW.removed ∧
      stD.saved = stW.saved ∧
      stD.removed =
        ([("h1", ["keepA", "dupA1", "dupA2"]), ("h2", ["keepB", "dupB1"])].map
          (fun g => g.2.length - 1)).sum ∧
      stD.saved =
        ((Dedupe.tailsOf [("h1", ["keepA", "dupA1", "dupA2"]), ("h2", ["keepB", "dupB1"])]).map
          (fun p =>
            (Dedupe.statSize
              [("keepA", 10), ("dupA1", 11), ("dupA2", 12), ("keepB", 20), ("dupB1", 21)]
              p).getD 0)).sum ∧
      (∀ g ∈ [("h1", ["keepA", "dupA1", "dupA2"]), ("h2", ["keepB", "dupB1"])],
        ∀ p rest, g.2 = p :: rest →
          Dedupe.statSize stW.fs p =
            Dedupe.statSize
              [("keepA", 10), ("dupA1", 11), ("dupA2", 12), ("keepB", 20), ("dupB1", 21)]
              p) :=
  claim_C9_dry_run_parity
    [("keepA", 10), ("dupA1", 11), ("dupA2", 12), ("keepB", 20), ("dupB1", 21)]
    [("h1", ["keepA", "dupA1", "dupA2"]), ("h2", ["keepB", "dupB1"])]
    (by decide) (by decide) (by decide)
